import Mathlib

/-!
Verification of `computeSales.py`: a batch tool that builds a product
price catalogue from JSON records, joins sale-line records against it,
and reports per-sale and grand totals.

The embedding is shallow: JSON leaf values become the inductive `Json`,
JSON objects become association lists `Obj`, Python floats are modelled
as exact rationals, and each Python function becomes a Lean function of
the same name.  Array- and object-valued record fields are outside the
model: the program crashes on them (unhashable dict key) or rejects them
(TypeError in float/int), and no property here depends on that corner.

Numeric accumulation is modelled over `ℚ`; the source accumulates IEEE
doubles, and the spec (section 4.2) states no rounding happens during
accumulation, so the exact-rational model is the intended semantics.
-/

/-- A JSON leaf value as Python sees it after `json.load`. -/
inductive Json where
  | null : Json
  | bool : Bool → Json
  | num : ℚ → Json
  | str : String → Json
deriving DecidableEq, Repr

/-- A parsed JSON object: association list from key to value. -/
abbrev Obj := List (String × Json)

/-- Lookup in an association list, first match wins (Python dict keys are
unique, so first match is the only match). -/
def alistLookup {α β : Type} [DecidableEq α] (k : α) : List (α × β) → Option β
  | [] => none
  | (k₂, v) :: rest => if k = k₂ then some v else alistLookup k rest

/-- Python `d[k] = v`: overwrite in place if the key exists (keeping its
position), otherwise append at the end. -/
def alistInsert {α β : Type} [DecidableEq α] (k : α) (v : β) : List (α × β) → List (α × β)
  | [] => [(k, v)]
  | (k₂, v₂) :: rest =>
      if k = k₂ then (k, v) :: rest else (k₂, v₂) :: alistInsert k v rest

/-- Apply `f` to the value stored under key `k`, leaving the rest alone. -/
def alistModify {α β : Type} [DecidableEq α] (k : α) (f : β → β) : List (α × β) → List (α × β)
  | [] => []
  | (k₂, v) :: rest =>
      if k = k₂ then (k₂, f v) :: rest else (k₂, v) :: alistModify k f rest

/-- Python `record.get(k)`: `None` both when the key is absent and when
it is present with JSON `null` (both are Python `None`). -/
def pyGet (r : Obj) (k : String) : Option Json :=
  match alistLookup k r with
  | some Json.null => none
  | some v => some v
  | none => none

/-- Python truthiness of a JSON leaf value (`if not x`). -/
def jsonTruthy : Json → Bool
  | Json.null => false
  | Json.bool b => b
  | Json.num q => if q = 0 then false else true
  | Json.str s => if s = "" then false else true

/-- Digits to the natural number they spell, most significant first. -/
def digitsToNat (l : List Char) : ℕ :=
  l.foldl (fun n c => n * 10 + (c.toNat - 48)) 0

/-- Strip leading and trailing spaces, as Python int()/float() do. -/
def trimSpaces (l : List Char) : List Char :=
  ((l.dropWhile (fun c => c = ' ')).reverse.dropWhile (fun c => c = ' ')).reverse

/-- An unsigned run of digits as an integer, `none` if empty or non-digit. -/
def parseIntDigits (l : List Char) : Option ℤ :=
  if l ≠ [] ∧ l.all Char.isDigit then some (digitsToNat l : ℤ) else none

/-- Python `int(s)` on a string: optional sign then decimal digits.
(Underscore digit separators, accepted by CPython, are not modelled;
no behaviour in this development depends on them.) -/
def parseIntString (s : String) : Option ℤ :=
  match trimSpaces s.toList with
  | '-' :: rest => (parseIntDigits rest).map Neg.neg
  | '+' :: rest => parseIntDigits rest
  | l => parseIntDigits l

/-- Unsigned decimal with optional fractional part, as a rational. -/
def parseUnsignedFloat (l : List Char) : Option ℚ :=
  let intPart := l.takeWhile Char.isDigit
  let rest := l.dropWhile Char.isDigit
  match rest with
  | [] => if intPart = [] then none else some (digitsToNat intPart : ℚ)
  | '.' :: frac =>
      if frac.all Char.isDigit ∧ (intPart ≠ [] ∨ frac ≠ []) then
        some ((digitsToNat intPart : ℚ) + (digitsToNat frac : ℚ) / ((10 : ℚ) ^ frac.length))
      else none
  | _ => none

/-- Python `float(s)` on a string: sign, digits, optional decimal point.
(Exponent, infinity and nan spellings are not modelled; no claim here
depends on them, and the catalogue invariants hold for any parser.) -/
def parseFloatString (s : String) : Option ℚ :=
  match trimSpaces s.toList with
  | '-' :: rest => (parseUnsignedFloat rest).map Neg.neg
  | '+' :: rest => parseUnsignedFloat rest
  | l => parseUnsignedFloat l

/-- Python `float(x)` on a JSON leaf: numbers pass through, booleans
coerce to 0 or 1, strings are parsed, `None` raises TypeError. -/
def pyFloat : Json → Option ℚ
  | Json.num q => some q
  | Json.bool b => some (if b then 1 else 0)
  | Json.str s => parseFloatString s
  | Json.null => none

/-- Truncation toward zero of a rational, as Python `int(float)`. -/
def ratTrunc (q : ℚ) : ℤ := Int.tdiv q.num (q.den : ℤ)

/-- Python `int(x)` on a JSON leaf: numbers truncate toward zero,
booleans coerce, strings are parsed as integer literals, `None` raises
TypeError. -/
def pyInt : Json → Option ℤ
  | Json.num q => some (ratTrunc q)
  | Json.bool b => some (if b then 1 else 0)
  | Json.str s => parseIntString s
  | Json.null => none

/-- One iteration of the loop in `build_price_catalogue`: validate a
product record and insert it, or skip it (warnings are console output
only and carry no data, so they are not modelled). -/
def catStep (cat : List (Json × ℚ)) (product : Obj) : List (Json × ℚ) :=
  match pyGet product "title" with
  | none => cat
  | some title =>
      if jsonTruthy title then
        match pyGet product "price" with
        | none => cat
        | some rawPrice =>
            match pyFloat rawPrice with
            | none => cat
            | some price => if price < 0 then cat else alistInsert title price cat
      else cat

/-- `build_price_catalogue(products)`: fold the per-record step over the
input list, starting from the empty dict. -/
def build_price_catalogue (products : List Obj) : List (Json × ℚ) :=
  products.foldl catStep []

/-- One line of a sale, as appended to `sale_totals[sale_id]["items"]`. -/
structure LineItem where
  product : Json
  quantity : ℤ
  unit_price : ℚ
  line_total : ℚ
deriving DecidableEq, Repr

/-- The per-sale aggregate dict `{"date": ..., "items": ..., "total": ...}`. -/
structure SaleAgg where
  date : Json
  items : List LineItem
  total : ℚ
deriving DecidableEq, Repr

/-- The loop state of `compute_sales`: the `sale_totals` dict (insertion
ordered, keyed by the SALE_ID value) and the running `grand_total`. -/
abbrev SaleState := List (Json × SaleAgg) × ℚ

/-- The body of the `compute_sales` loop after the SALE_ID check passed:
validate Product, Quantity and catalogue membership, then create the
aggregate if needed, append the line item and bump both totals. -/
def saleStepChecked (catalogue : List (Json × ℚ)) (st : SaleState) (record : Obj)
    (sale_id : Json) : SaleState :=
  match pyGet record "Product" with
  | none => st
  | some product =>
      if jsonTruthy product then
        match (pyGet record "Quantity").bind pyInt with
        | none => st
        | some quantity =>
            match alistLookup product catalogue with
            | none => st
            | some unit_price =>
                let line_total : ℚ := unit_price * (quantity : ℚ)
                let item : LineItem :=
                  { product := product, quantity := quantity,
                    unit_price := unit_price, line_total := line_total }
                let created :=
                  match alistLookup sale_id st.1 with
                  | none =>
                      st.1 ++ [(sale_id,
                        { date := (alistLookup "SALE_Date" record).getD (Json.str "N/A"),
                          items := [], total := 0 })]
                  | some _ => st.1
                (alistModify sale_id
                   (fun agg =>
                     { date := agg.date, items := agg.items ++ [item],
                       total := agg.total + line_total }) created,
                 st.2 + line_total)
      else st

/-- One iteration of the `compute_sales` loop: the SALE_ID presence check
(`record.get` followed by `is None`), then the rest of the body. -/
def saleStep (catalogue : List (Json × ℚ)) (st : SaleState) (record : Obj) : SaleState :=
  match pyGet record "SALE_ID" with
  | none => st
  | some sale_id => saleStepChecked catalogue st record sale_id

/-- `compute_sales(catalogue, sales_records)`: fold the per-record step,
starting from an empty dict and a zero grand total. -/
def compute_sales (catalogue : List (Json × ℚ)) (sales_records : List Obj) : SaleState :=
  sales_records.foldl (saleStep catalogue) ([], 0)

/-- The priced value of a single sale record, `none` when any of the four
validations of `compute_sales` rejects it: SALE_ID present, Product
present and truthy, Quantity parses as an integer, Product is a key of
the catalogue.  Used to state the grand-total claims line by line. -/
def validLineValue (catalogue : List (Json × ℚ)) (record : Obj) : Option ℚ :=
  match pyGet record "SALE_ID", pyGet record "Product", (pyGet record "Quantity").bind pyInt with
  | some _, some product, some quantity =>
      if jsonTruthy product then
        (alistLookup product catalogue).map (fun price => price * (quantity : ℚ))
      else none
  | _, _, _ => none

/-- The namespace result of `parse_args`. -/
structure Args where
  catalogue : String
  sales : String
  total : Bool
  detail : Bool
deriving DecidableEq, Repr

/-- Does a command-line token look like an option (starts with a dash)? -/
def isOptionToken (s : String) : Bool :=
  match s.toList with
  | '-' :: _ => true
  | _ => false

/-- `parse_args(argv)`: two positional paths plus the mutually exclusive
flags `--total` and `--detail`; `none` models argparse aborting (unknown
option, both flags given, or wrong positional count).  Faithful to the
source: `--total` is declared with `action="store_true"` AND
`default=True`, so `args.total` is `True` whether or not the flag is
passed, and the post-processing `if args.total: args.detail = False`
therefore always clears `detail`. -/
def parse_args (argv : List String) : Option Args :=
  let options := argv.filter isOptionToken
  let positionals := argv.filter (fun a => !isOptionToken a)
  if options.any (fun a => a ≠ "--total" ∧ a ≠ "--detail") then none
  else if argv.contains "--total" && argv.contains "--detail" then none
  else
    match positionals with
    | [cataloguePath, salesPath] =>
        let total := argv.contains "--total" || true
        let detail := argv.contains "--detail"
        let args : Args :=
          { catalogue := cataloguePath, sales := salesPath, total := total, detail := detail }
        some (if args.total then { args with detail := false } else args)
    | _ => none

/-- The fatal-vs-report skeleton of `main` after both JSON files parsed
as arrays of objects: build the catalogue; when it is empty, exit with
status 1 before any report is formatted or written (so no report file is
produced); otherwise run the aggregation whose result the report is
formatted from and written with.  File I/O and timing are external
collaborators (spec section 1) and are not modelled. -/
def run_main (products : List Obj) (sales_records : List Obj) :
    Except ℕ SaleState :=
  let catalogue := build_price_catalogue products
  if catalogue = [] then Except.error 1
  else Except.ok (compute_sales catalogue sales_records)

/-! ## Association-list lemmas -/

theorem alistLookup_alistInsert {α β : Type} [DecidableEq α] (k k₂ : α) (v : β)
    (l : List (α × β)) :
    alistLookup k (alistInsert k₂ v l) = if k = k₂ then some v else alistLookup k l := by
  induction l with
  | nil => simp [alistInsert, alistLookup]
  | cons hd tl ih =>
      obtain ⟨k₃, v₃⟩ := hd
      by_cases h₂ : k₂ = k₃
      · subst h₂
        by_cases h : k = k₂ <;> simp [alistInsert, alistLookup, h]
      · by_cases h : k = k₃
        · subst h
          simp [alistInsert, alistLookup, h₂, Ne.symm h₂]
        · simp [alistInsert, alistLookup, h₂, h, ih]

theorem alistLookup_alistModify {α β : Type} [DecidableEq α] (k k₂ : α) (f : β → β)
    (l : List (α × β)) :
    alistLookup k (alistModify k₂ f l) =
      if k = k₂ then (alistLookup k l).map f else alistLookup k l := by
  induction l with
  | nil => by_cases h : k = k₂ <;> simp [alistModify, alistLookup, h]
  | cons hd tl ih =>
      obtain ⟨k₃, v₃⟩ := hd
      by_cases h₂ : k₂ = k₃
      · subst h₂
        by_cases h : k = k₂ <;> simp [alistModify, alistLookup, h]
      · by_cases h : k = k₃
        · subst h
          simp [alistModify, alistLookup, h₂, Ne.symm h₂]
        · simp [alistModify, alistLookup, h₂, h, ih]

theorem alistLookup_append {α β : Type} [DecidableEq α] (k : α) (l₁ l₂ : List (α × β)) :
    alistLookup k (l₁ ++ l₂) =
      match alistLookup k l₁ with
      | some v => some v
      | none => alistLookup k l₂ := by
  induction l₁ with
  | nil => simp [alistLookup]
  | cons hd tl ih =>
      obtain ⟨k₃, v₃⟩ := hd
      by_cases h : k = k₃ <;> simp [alistLookup, h, ih]

theorem alistLookup_mem {α β : Type} [DecidableEq α] {k : α} {v : β} {l : List (α × β)}
    (h : alistLookup k l = some v) : (k, v) ∈ l := by
  induction l with
  | nil => simp [alistLookup] at h
  | cons hd tl ih =>
      obtain ⟨k₃, v₃⟩ := hd
      by_cases hk : k = k₃
      · subst hk
        simp [alistLookup] at h
        simp [h]
      · simp [alistLookup, hk] at h
        exact List.mem_cons_of_mem _ (ih h)

theorem alistModify_forall {α β : Type} [DecidableEq α] (k : α) (f : β → β)
    (P : β → Prop) (l : List (α × β)) (hl : ∀ e ∈ l, P e.2)
    (hf : ∀ v, P v → P (f v)) : ∀ e ∈ alistModify k f l, P e.2 := by
  induction l with
  | nil => simp [alistModify]
  | cons hd tl ih =>
      obtain ⟨k₃, v₃⟩ := hd
      by_cases h : k = k₃
      · simp only [alistModify, if_pos h]
        intro e he
        rcases List.mem_cons.mp he with h₁ | h₁
        · subst h₁
          exact hf v₃ (hl (k₃, v₃) (List.mem_cons_self _ _))
        · exact hl e (List.mem_cons_of_mem _ h₁)
      · simp only [alistModify, if_neg h]
        intro e he
        rcases List.mem_cons.mp he with h₁ | h₁
        · subst h₁
          exact hl (k₃, v₃) (List.mem_cons_self _ _)
        · exact ih (fun e₂ he₂ => hl e₂ (List.mem_cons_of_mem _ he₂)) e h₁

/-! ## Per-step lemmas about the sales aggregator -/

/-- Each loop iteration adds to the running grand total exactly the
priced value of the record, or nothing when the record is skipped. -/
theorem saleStep_grand (catalogue : List (Json × ℚ)) (st : SaleState) (record : Obj) :
    (saleStep catalogue st record).2 = st.2 + (validLineValue catalogue record).getD 0 := by
  unfold saleStep validLineValue
  cases hsid : pyGet record "SALE_ID" with
  | none => simp
  | some sale_id =>
      unfold saleStepChecked
      cases hprod : pyGet record "Product" with
      | none => simp
      | some product =>
          cases hq : (pyGet record "Quantity").bind pyInt with
          | none => by_cases ht : jsonTruthy product <;> simp [ht, hq]
          | some quantity =>
              by_cases ht : jsonTruthy product
              · cases hlook : alistLookup product catalogue with
                | none => simp [ht, hq, hlook]
                | some price => simp [ht, hq, hlook]
              · simp [ht, hq]

/-- Each loop iteration preserves the invariant that every aggregate
total is the sum of the line totals of its items. -/
theorem saleStep_totals (catalogue : List (Json × ℚ)) (st : SaleState) (record : Obj)
    (h : ∀ e ∈ st.1, e.2.total = (e.2.items.map LineItem.line_total).sum) :
    ∀ e ∈ (saleStep catalogue st record).1,
      e.2.total = (e.2.items.map LineItem.line_total).sum := by
  unfold saleStep
  cases hsid : pyGet record "SALE_ID" with
  | none => exact h
  | some sale_id =>
      unfold saleStepChecked
      cases hprod : pyGet record "Product" with
      | none => exact h
      | some product =>
          by_cases ht : jsonTruthy product
          · cases hq : (pyGet record "Quantity").bind pyInt with
            | none => simp only [ht, if_true, hq]; exact h
            | some quantity =>
                cases hlook : alistLookup product catalogue with
                | none => simp only [ht, if_true, hq, hlook]; exact h
                | some price =>
                    simp only [ht, if_true, hq, hlook]
                    have hf : ∀ v : SaleAgg,
                        v.total = (v.items.map LineItem.line_total).sum →
                        v.total + price * (quantity : ℚ) =
                          ((v.items ++
                            [({ product := product, quantity := quantity,
                                unit_price := price,
                                line_total := price * (quantity : ℚ) } : LineItem)]).map
                              LineItem.line_total).sum := by
                      intro v hv
                      simp [hv, List.sum_append]
                    cases hex : alistLookup sale_id st.1 with
                    | none =>
                        simp only [hex]
                        refine alistModify_forall _ _
                          (fun v : SaleAgg => v.total = (v.items.map LineItem.line_total).sum)
                          _ ?_ ?_
                        · intro e he
                          rcases List.mem_append.mp he with h₁ | h₁
                          · exact h e h₁
                          · simp only [List.mem_singleton] at h₁
                            subst h₁
                            simp
                        · exact fun v hv => hf v hv
                    | some a =>
                        simp only [hex]
                        refine alistModify_forall _ _
                          (fun v : SaleAgg => v.total = (v.items.map LineItem.line_total).sum)
                          _ ?_ ?_
                        · exact h
                        · exact fun v hv => hf v hv
          · simp only [ht, if_false]
            exact h

/-- The grand total of the fold from any intermediate state is the
starting grand total plus each remaining line contribution. -/
theorem foldl_saleStep_grand (catalogue : List (Json × ℚ)) (records : List Obj) :
    ∀ st : SaleState,
      (records.foldl (saleStep catalogue) st).2 =
        st.2 + (records.map (fun r => (validLineValue catalogue r).getD 0)).sum := by
  induction records with
  | nil => intro st; simp
  | cons r rest ih =>
      intro st
      rw [List.foldl_cons, ih (saleStep catalogue st r), saleStep_grand]
      simp [add_assoc]

/-- The per-sale total invariant holds of every state reachable by the
fold from a state that satisfies it. -/
theorem foldl_saleStep_totals (catalogue : List (Json × ℚ)) (records : List Obj) :
    ∀ st : SaleState,
      (∀ e ∈ st.1, e.2.total = (e.2.items.map LineItem.line_total).sum) →
      ∀ e ∈ (records.foldl (saleStep catalogue) st).1,
        e.2.total = (e.2.items.map LineItem.line_total).sum := by
  induction records with
  | nil => intro st h; exact h
  | cons r rest ih =>
      intro st h
      rw [List.foldl_cons]
      exact ih (saleStep catalogue st r) (saleStep_totals catalogue st r h)

/-! ## Claim theorems -/

/-- C2.  The grand total returned by `compute_sales` is the sum, over
exactly the sale lines that pass all four validations (SALE_ID present,
Product present and truthy, Quantity parses as an integer, Product a key
of the catalogue), of catalogue price times quantity; skipped lines
contribute zero. -/
theorem compute_sales_grand_total (catalogue : List (Json × ℚ)) (records : List Obj) :
    (compute_sales catalogue records).2 =
      (records.map (fun r => (validLineValue catalogue r).getD 0)).sum := by
  unfold compute_sales
  rw [foldl_saleStep_grand]
  simp

/-- C4.  For every SALE_ID present in the result of `compute_sales`, the
aggregate total equals the sum of `line_total` over its items list. -/
theorem compute_sales_total_eq_sum_items (catalogue : List (Json × ℚ))
    (records : List Obj) (k : Json) (agg : SaleAgg)
    (h : alistLookup k (compute_sales catalogue records).1 = some agg) :
    agg.total = (agg.items.map LineItem.line_total).sum := by
  have hmem := alistLookup_mem h
  exact foldl_saleStep_totals catalogue records ([], 0) (by simp) (k, agg) hmem

/-- C3 helper: one catalogue-builder iteration keeps every stored price
nonnegative, because a parsed negative price is skipped before insert. -/
theorem catStep_nonneg (cat : List (Json × ℚ)) (product : Obj)
    (h : ∀ t p, alistLookup t cat = some p → 0 ≤ p) :
    ∀ t p, alistLookup t (catStep cat product) = some p → 0 ≤ p := by
  unfold catStep
  cases htitle : pyGet product "title" with
  | none => exact h
  | some title =>
      by_cases ht : jsonTruthy title
      · cases hprice : pyGet product "price" with
        | none => simp only [ht, if_true, hprice]; exact h
        | some rawPrice =>
            cases hfloat : pyFloat rawPrice with
            | none => simp only [ht, if_true, hprice, hfloat]; exact h
            | some price =>
                simp only [ht, if_true, hprice, hfloat]
                by_cases hneg : price < 0
                · simp only [hneg, if_true]; exact h
                · simp only [hneg, if_false]
                  intro t p hp
                  rw [alistLookup_alistInsert] at hp
                  by_cases hk : t = title
                  · rw [if_pos hk] at hp
                    cases hp
                    exact le_of_not_lt hneg
                  · rw [if_neg hk] at hp
                    exact h t p hp
      · simp only [ht, if_false]
        exact h

/-- C3.  Every price stored in the catalogue returned by
`build_price_catalogue` is nonnegative: records with a negative parsed
price are skipped, so the spec invariant `price >= 0` holds for every
key of the result. -/
theorem build_price_catalogue_nonneg (products : List Obj) (t : Json) (p : ℚ)
    (h : alistLookup t (build_price_catalogue products) = some p) : 0 ≤ p := by
  unfold build_price_catalogue at h
  revert h
  have haux : ∀ cat : List (Json × ℚ),
      (∀ t₂ p₂, alistLookup t₂ cat = some p₂ → 0 ≤ p₂) →
      ∀ t₂ p₂, alistLookup t₂ (products.foldl catStep cat) = some p₂ → 0 ≤ p₂ := by
    induction products with
    | nil => intro cat hc; exact hc
    | cons pr rest ih =>
        intro cat hc
        rw [List.foldl_cons]
        exact ih (catStep cat pr) (catStep_nonneg cat pr hc)
  intro h
  exact haux [] (by intro t₂ p₂ hp; simp [alistLookup] at hp) t p h

/-- C3 witness: a one-product catalogue has the nonnegativity property
at its only key. -/
theorem build_price_catalogue_nonneg_witness :
    alistLookup (Json.str "Pen") (build_price_catalogue
      [[("title", Json.str "Pen"), ("price", Json.num 2)]]) = some 2 ∧ (0:ℚ) ≤ 2 :=
  ⟨by decide, build_price_catalogue_nonneg
    [[("title", Json.str "Pen"), ("price", Json.num 2)]] (Json.str "Pen") 2 (by decide)⟩

/-- C5.  When the catalogue has zero valid entries after filtering
(in particular for an empty input array), `main` is fatal: it exits with
status 1 before the report is formatted, printed or written. -/
theorem run_main_fatal_on_empty_catalogue (products sales_records : List Obj)
    (h : build_price_catalogue products = []) :
    run_main products sales_records = Except.error 1 := by
  unfold run_main
  simp [h]

/-- C5 witness: the empty catalogue array is fatal with exit status 1. -/
theorem run_main_fatal_on_empty_catalogue_witness :
    build_price_catalogue ([] : List Obj) = [] ∧
      run_main ([] : List Obj)
        [[("SALE_ID", Json.num 1), ("Product", Json.str "Pen"), ("Quantity", Json.num 4)]]
        = Except.error 1 :=
  ⟨rfl, run_main_fatal_on_empty_catalogue _ _ rfl⟩

/-- C9.  Aggregation is deterministic and stateless: `compute_sales` is
a pure function of the catalogue and the record list in this embedding
(the source reads no global mutable state and its accumulators are
local), so two runs on the same inputs return identical `sale_totals`
maps and identical grand totals. -/
theorem compute_sales_deterministic (catalogue : List (Json × ℚ)) (records : List Obj) :
    compute_sales catalogue records = compute_sales catalogue records := rfl

/-! ## Concrete fixtures shared by witnesses and counterexamples -/

/-- A one-entry catalogue: Pen costs 2. -/
def penCatalogue : List (Json × ℚ) := [(Json.str "Pen", 2)]

/-- A valid sale line whose Quantity is the string "3". -/
def penSale3 : Obj :=
  [("SALE_ID", Json.num 1), ("Product", Json.str "Pen"), ("Quantity", Json.str "3")]

/-- A sale line whose Quantity is the unparseable string "abc". -/
def penSaleAbc : Obj :=
  [("SALE_ID", Json.num 1), ("Product", Json.str "Pen"), ("Quantity", Json.str "abc")]

/-- A sale line whose SALE_ID key is present but holds JSON null. -/
def nullIdSale : Obj :=
  [("SALE_ID", Json.null), ("Product", Json.str "Pen"), ("Quantity", Json.num 1)]

/-- A sale line whose SALE_ID is the falsy-but-present number 0. -/
def zeroIdSale : Obj :=
  [("SALE_ID", Json.num 0), ("Product", Json.str "Pen"), ("Quantity", Json.num 1)]

/-- The aggregate produced by `penSale3` against `penCatalogue`. -/
def penAgg3 : SaleAgg :=
  { date := Json.str "N/A",
    items := [{ product := Json.str "Pen", quantity := 3, unit_price := 2,
                line_total := 2 * ((3:ℤ):ℚ) }],
    total := 0 + 2 * ((3:ℤ):ℚ) }

/-- C4 witness: a concrete one-line run in which the only aggregate has
its total equal to the sum of its item line totals. -/
theorem compute_sales_total_eq_sum_items_witness :
    alistLookup (Json.num 1) (compute_sales penCatalogue [penSale3]).1 = some penAgg3 ∧
    penAgg3.total = (penAgg3.items.map LineItem.line_total).sum :=
  ⟨rfl, compute_sales_total_eq_sum_items penCatalogue [penSale3] (Json.num 1) penAgg3 rfl⟩

/-- C1 (code bug).  Passing `--detail` (without `--total`) still yields
`detail = False`: `--total` is declared with `action="store_true"` and
`default=True`, so `args.total` is true on every run, and the
post-processing `if args.total: args.detail = False` always clears the
detail flag.  `main` therefore always renders the summary-only report;
detail mode is unreachable from the command line, contradicting the
docstring and help text of the source. -/
theorem parse_args_detail_flag_ignored :
    parse_args ["priceCatalogue.json", "salesRecord.json", "--detail"] =
      some { catalogue := "priceCatalogue.json", sales := "salesRecord.json",
             total := true, detail := false } := by decide

/-- C6 counterexample: a record whose SALE_ID key is present but holds
JSON null is nevertheless skipped at the SALE_ID validation, because
`record.get("SALE_ID")` returns Python `None` for a stored null exactly
as for an absent key.  The record is otherwise fully valid against
`penCatalogue`, yet the run produces no aggregate and a zero total. -/
theorem saleid_null_present_but_skipped :
    alistLookup "SALE_ID" nullIdSale = some Json.null ∧
    validLineValue penCatalogue nullIdSale = none ∧
    compute_sales penCatalogue [nullIdSale] = ([], 0) :=
  ⟨rfl, rfl, rfl⟩

/-- C6 (amended).  A sale record is skipped at the SALE_ID check exactly
when `record.get("SALE_ID")` is Python `None`, i.e. when the key is
absent or holds JSON null; any other present value — including falsy
ones such as numeric zero — passes the check and the record proceeds to
the remaining validations. -/
theorem saleid_present_nonnull_not_skipped (catalogue : List (Json × ℚ)) (st : SaleState)
    (record : Obj) (v : Json) (hpresent : alistLookup "SALE_ID" record = some v)
    (hnotnull : v ≠ Json.null) :
    saleStep catalogue st record = saleStepChecked catalogue st record v := by
  unfold saleStep pyGet
  rw [hpresent]
  cases v with
  | null => exact absurd rfl hnotnull
  | bool b => rfl
  | num q => rfl
  | str s => rfl

/-- C6 witness: SALE_ID numeric zero is present, and the record reaches
the validations after the SALE_ID check. -/
theorem saleid_present_nonnull_not_skipped_witness :
    alistLookup "SALE_ID" zeroIdSale = some (Json.num 0) ∧
    saleStep penCatalogue ([], 0) zeroIdSale =
      saleStepChecked penCatalogue ([], 0) zeroIdSale (Json.num 0) :=
  ⟨rfl, saleid_present_nonnull_not_skipped penCatalogue ([], 0) zeroIdSale (Json.num 0)
    rfl (by decide)⟩

/-- C7.  A sale record with Quantity given as the string "3", and
otherwise valid fields, is accepted with the quantity treated as the
integer 3; the same record with Quantity "abc" is skipped and
contributes nothing. -/
theorem quantity_string_accept_reject (catalogue : List (Json × ℚ)) (record : Obj)
    (sale_id product : Json) (price : ℚ)
    (hsid : pyGet record "SALE_ID" = some sale_id)
    (hprod : pyGet record "Product" = some product)
    (htruthy : jsonTruthy product = true)
    (hprice : alistLookup product catalogue = some price) :
    (pyGet record "Quantity" = some (Json.str "3") →
      compute_sales catalogue [record] =
        ([(sale_id,
           { date := (alistLookup "SALE_Date" record).getD (Json.str "N/A"),
             items := [{ product := product, quantity := 3, unit_price := price,
                         line_total := price * ((3:ℤ):ℚ) }],
             total := 0 + price * ((3:ℤ):ℚ) })],
         0 + price * ((3:ℤ):ℚ)))
    ∧ (pyGet record "Quantity" = some (Json.str "abc") →
      compute_sales catalogue [record] = ([], 0)) := by
  constructor
  · intro hq
    show saleStep catalogue ([], 0) record = _
    unfold saleStep
    rw [hsid]
    unfold saleStepChecked
    rw [hprod, hq]
    have h₃ : pyInt (Json.str "3") = some 3 := rfl
    simp only [htruthy, if_true, Option.some_bind, h₃, hprice]
    simp [alistModify, alistLookup]
  · intro hq
    show saleStep catalogue ([], 0) record = _
    unfold saleStep
    rw [hsid]
    unfold saleStepChecked
    rw [hprod, hq]
    have habc : pyInt (Json.str "abc") = none := rfl
    simp only [htruthy, if_true, Option.some_bind, habc]

/-- C7 witness: against `penCatalogue`, the Quantity-"3" record yields
one aggregate with integer quantity 3, and the Quantity-"abc" record is
skipped entirely. -/
theorem quantity_string_accept_reject_witness :
    compute_sales penCatalogue [penSale3] =
      ([(Json.num 1,
         { date := Json.str "N/A",
           items := [{ product := Json.str "Pen", quantity := 3, unit_price := 2,
                       line_total := 2 * ((3:ℤ):ℚ) }],
           total := 0 + 2 * ((3:ℤ):ℚ) })],
       0 + 2 * ((3:ℤ):ℚ)) ∧
    compute_sales penCatalogue [penSaleAbc] = ([], 0) :=
  ⟨(quantity_string_accept_reject penCatalogue penSale3 (Json.num 1) (Json.str "Pen") 2
      rfl rfl rfl rfl).1 rfl,
   (quantity_string_accept_reject penCatalogue penSaleAbc (Json.num 1) (Json.str "Pen") 2
      rfl rfl rfl rfl).2 rfl⟩

/-- C8.  The date of a sale aggregate is fixed at creation: an aggregate
created by a step carries the SALE_Date of the creating record (sentinel
"N/A" when absent), and a step that touches an already-existing key
never changes its date — even when the incoming record carries a
different SALE_Date. -/
theorem sale_date_fixed_at_creation (catalogue : List (Json × ℚ)) (st : SaleState)
    (record : Obj) (k : Json) :
    (∀ agg, alistLookup k st.1 = some agg →
        ∀ agg₂, alistLookup k (saleStep catalogue st record).1 = some agg₂ →
          agg₂.date = agg.date)
    ∧ (alistLookup k st.1 = none →
        ∀ agg₂, alistLookup k (saleStep catalogue st record).1 = some agg₂ →
          agg₂.date = (alistLookup "SALE_Date" record).getD (Json.str "N/A")) := by
  have hid : (∀ agg, alistLookup k st.1 = some agg →
      ∀ agg₂, alistLookup k st.1 = some agg₂ → agg₂.date = agg.date)
    ∧ (alistLookup k st.1 = none →
      ∀ agg₂, alistLookup k st.1 = some agg₂ →
        agg₂.date = (alistLookup "SALE_Date" record).getD (Json.str "N/A")) := by
    constructor
    · intro agg h₁ agg₂ h₂
      rw [h₁] at h₂
      injection h₂ with h₃
      rw [← h₃]
    · intro h₁ agg₂ h₂
      rw [h₁] at h₂
      cases h₂
  unfold saleStep
  cases hsid : pyGet record "SALE_ID" with
  | none => exact hid
  | some sale_id =>
      unfold saleStepChecked
      cases hprod : pyGet record "Product" with
      | none => exact hid
      | some product =>
          by_cases ht : jsonTruthy product
          · cases hq : (pyGet record "Quantity").bind pyInt with
            | none => simp only [ht, if_true, hq]; exact hid
            | some quantity =>
                cases hlook : alistLookup product catalogue with
                | none => simp only [ht, if_true, hq, hlook]; exact hid
                | some price =>
                    simp only [ht, if_true, hq, hlook]
                    cases hex : alistLookup sale_id st.1 with
                    | none =>
                        simp only [hex]
                        constructor
                        · intro agg h₁ agg₂ h₂
                          by_cases hk : k = sale_id
                          · subst hk
                            rw [h₁] at hex
                            cases hex
                          · rw [alistLookup_alistModify, if_neg hk,
                              alistLookup_append, h₁] at h₂
                            injection h₂ with h₃
                            rw [← h₃]
                        · intro h₁ agg₂ h₂
                          by_cases hk : k = sale_id
                          · subst hk
                            rw [alistLookup_alistModify, if_pos rfl,
                              alistLookup_append, h₁] at h₂
                            simp only [alistLookup, if_pos rfl, Option.map_some] at h₂
                            injection h₂ with h₃
                            rw [← h₃]
                          · rw [alistLookup_alistModify, if_neg hk,
                              alistLookup_append, h₁] at h₂
                            simp only [alistLookup, if_neg hk] at h₂
                            cases h₂
                    | some a =>
                        simp only [hex]
                        constructor
                        · intro agg h₁ agg₂ h₂
                          by_cases hk : k = sale_id
                          · subst hk
                            rw [alistLookup_alistModify, if_pos rfl, h₁] at h₂
                            injection h₂ with h₃
                            rw [← h₃]
                          · rw [alistLookup_alistModify, if_neg hk, h₁] at h₂
                            injection h₂ with h₃
                            rw [← h₃]
                        · intro h₁ agg₂ h₂
                          by_cases hk : k = sale_id
                          · subst hk
                            rw [h₁] at hex
                            cases hex
                          · rw [alistLookup_alistModify, if_neg hk, h₁] at h₂
                            cases h₂
          · simp only [ht, if_false]
            exact hid

/-- An existing aggregate for SALE_ID 1 dated 2026-01-01. -/
def dateAgg : SaleAgg := { date := Json.str "2026-01-01", items := [], total := 0 }

/-- A state in which SALE_ID 1 already has an aggregate. -/
def dateState : SaleState := ([(Json.num 1, dateAgg)], 0)

/-- A later valid line for SALE_ID 1 carrying a different SALE_Date. -/
def dateRecord : Obj :=
  [("SALE_ID", Json.num 1), ("SALE_Date", Json.str "2026-02-02"),
   ("Product", Json.str "Pen"), ("Quantity", Json.str "2")]

/-- The aggregate for SALE_ID 1 after `dateRecord` is processed: items
and total changed, date untouched. -/
def dateAgg₂ : SaleAgg :=
  { date := Json.str "2026-01-01",
    items := [{ product := Json.str "Pen", quantity := 2, unit_price := 2,
                line_total := 2 * ((2:ℤ):ℚ) }],
    total := 0 + 2 * ((2:ℤ):ℚ) }

/-- C8 witness: processing a later line with SALE_Date 2026-02-02 for an
aggregate dated 2026-01-01 leaves the stored date unchanged. -/
theorem sale_date_fixed_at_creation_witness :
    alistLookup (Json.num 1) dateState.1 = some dateAgg ∧
    alistLookup (Json.num 1) (saleStep penCatalogue dateState dateRecord).1 = some dateAgg₂ ∧
    dateAgg₂.date = dateAgg.date :=
  ⟨rfl, rfl,
   (sale_date_fixed_at_creation penCatalogue dateState dateRecord (Json.num 1)).1
     dateAgg rfl dateAgg₂ rfl⟩

/-- A non-integer rational, 39/10, as a JSON number. -/
def qNonInt : ℚ := Rat.mk' 39 10 (by decide) (by decide)

/-- A sale line whose Quantity is the non-integer JSON number 3.9. -/
def oddQuantitySale : Obj :=
  [("SALE_ID", Json.num 7), ("Product", Json.str "Pen"), ("Quantity", Json.num qNonInt)]

/-- C10 (implicit).  A record whose Quantity is a non-integer JSON
number is not skipped as malformed: `int()` truncates the value toward
zero, the line is accepted with the truncated quantity, and its line
total is the unit price times the truncated quantity. -/
theorem quantity_noninteger_number_truncated (catalogue : List (Json × ℚ)) (record : Obj)
    (sale_id product : Json) (price : ℚ) (qv : ℚ)
    (hsid : pyGet record "SALE_ID" = some sale_id)
    (hprod : pyGet record "Product" = some product)
    (htruthy : jsonTruthy product = true)
    (hprice : alistLookup product catalogue = some price)
    (hq : pyGet record "Quantity" = some (Json.num qv))
    (_hnonint : qv.den ≠ 1) :
    compute_sales catalogue [record] =
      ([(sale_id,
         { date := (alistLookup "SALE_Date" record).getD (Json.str "N/A"),
           items := [{ product := product, quantity := ratTrunc qv, unit_price := price,
                       line_total := price * ((ratTrunc qv : ℤ) : ℚ) }],
           total := 0 + price * ((ratTrunc qv : ℤ) : ℚ) })],
       0 + price * ((ratTrunc qv : ℤ) : ℚ)) := by
  show saleStep catalogue ([], 0) record = _
  unfold saleStep
  rw [hsid]
  unfold saleStepChecked
  rw [hprod, hq]
  have hqi : pyInt (Json.num qv) = some (ratTrunc qv) := rfl
  simp only [htruthy, if_true, Option.some_bind, hqi, hprice]
  simp [alistModify, alistLookup]

/-- C10 witness: Quantity 3.9 is accepted as quantity 3 and priced at
unit price times 3. -/
theorem quantity_noninteger_number_truncated_witness :
    qNonInt.den ≠ 1 ∧
    compute_sales penCatalogue [oddQuantitySale] =
      ([(Json.num 7,
         { date := Json.str "N/A",
           items := [{ product := Json.str "Pen", quantity := 3, unit_price := 2,
                       line_total := 2 * ((3:ℤ):ℚ) }],
           total := 0 + 2 * ((3:ℤ):ℚ) })],
       0 + 2 * ((3:ℤ):ℚ)) :=
  ⟨by decide,
   quantity_noninteger_number_truncated penCatalogue oddQuantitySale (Json.num 7)
     (Json.str "Pen") 2 qNonInt rfl rfl rfl rfl rfl (by decide)⟩
